import Mathlib

/-!
Verification of the daily-suggestion subsystem of the mindio backend
(`suggestions.py`, `ai_client.py`, `models.py`).

Text is modelled as `List Char`.  The helpers `_extract_text_from_possible_json`,
`_sanitize_text` and `_validate_text` of `suggestions.py` are embedded below,
including the `json.loads` call (a recursive-descent JSON reader mirroring the
behaviour of Python's `json.loads` on the relevant inputs) and the three regular
expressions of the source, unfolded into equivalent deterministic string
functions.
-/

set_option maxRecDepth 8000

/-- Python whitespace (`str.strip`, regex `\s`), ASCII range. -/
def pySpace (c : Char) : Bool :=
  c = ' ' || c = '\t' || c = '\n' || c = '\r' || c = Char.ofNat 11 || c = Char.ofNat 12

/-- Characters collapsed by `re.sub(r"[ \t]+", " ", t)`. -/
def blankChar (c : Char) : Bool := c = ' ' || c = '\t'

/-- Backtick, double quote, single quote, braces and brackets as characters. -/
def btick : Char := Char.ofNat 96

def dquoteChar : Char := Char.ofNat 34

def squoteChar : Char := Char.ofNat 39

def lbraceChar : Char := Char.ofNat 123

def rbraceChar : Char := Char.ofNat 125

def lbrackChar : Char := Char.ofNat 91

def rbrackChar : Char := Char.ofNat 93

/-- `lstrip` over Python whitespace. -/
def stripLeft (l : List Char) : List Char := l.dropWhile pySpace

/-- `rstrip` over Python whitespace. -/
def stripRight (l : List Char) : List Char := (l.reverse.dropWhile pySpace).reverse

/-- Python `str.strip()`. -/
def pyStrip (l : List Char) : List Char := stripRight (stripLeft l)

/-- The code fence token ` ``` `. -/
def fenceTok : List Char := [btick, btick, btick]

/-- `l` ends with `suf`. -/
def hasSuffixL (l suf : List Char) : Bool := suf.reverse.isPrefixOf l.reverse

/-- Case-insensitive comparison with the four letters of the word json
(the `(?:json)?` group of the fence regexes, `re.IGNORECASE`). -/
def isJsonWord (l : List Char) : Bool :=
  l.map Char.toLower = ['j', 's', 'o', 'n']

/-- The leading-fence pattern `^\s*```(?:json)?\s*` of `suggestions.py`:
if the input starts (after whitespace) with a fence opener, return the rest
after also consuming an optional case-insensitive `json` tag and following
whitespace; otherwise `none`. -/
def stripFenceOpen (l : List Char) : Option (List Char) :=
  let r := stripLeft l
  if fenceTok.isPrefixOf r then
    let r1 := r.drop 3
    let r2 := if isJsonWord (r1.take 4) then r1.drop 4 else r1
    some (r2.dropWhile pySpace)
  else none

/-- `re.sub(r"^\s*```(?:json)?\s*", "", t, flags=re.IGNORECASE)`. -/
def subLeadingFence (l : List Char) : List Char :=
  match stripFenceOpen l with
  | some r => r
  | none => l

/-- `re.sub(r"\s*```\s*$", "", t)`: drop a trailing fence together with the
whitespace around it (leftmost match of the anchored pattern). -/
def subTrailingFence (l : List Char) : List Char :=
  let a := stripRight l
  if hasSuffixL a fenceTok then stripRight (a.take (a.length - 3)) else l

/-- `_JSON_FENCE_RE.match(s)` of `suggestions.py` (`^\s*```(?:json)?\s*(.*?)\s*```\s*$`
with `DOTALL | IGNORECASE`): the captured group when the whole string is a fenced
block, else `none`. -/
def fenceGroup (l : List Char) : Option (List Char) :=
  match stripFenceOpen l with
  | none => none
  | some r =>
    let a := stripRight r
    if hasSuffixL a fenceTok then some (stripRight (a.take (a.length - 3))) else none

/-- `t.replace("\r\n", "\n")`. -/
def replCRLF : List Char → List Char
  | '\r' :: '\n' :: rest => '\n' :: replCRLF rest
  | c :: rest => c :: replCRLF rest
  | [] => []

/-- `t.replace("\r", "\n")`. -/
def mapCR (l : List Char) : List Char := l.map (fun c => if c = '\r' then '\n' else c)

/-- `re.sub(r"[ \t]+", " ", t)`: collapse every run of spaces/tabs to one space. -/
def collapseWs : List Char → List Char
  | [] => []
  | [c] => [if blankChar c then ' ' else c]
  | c1 :: c2 :: rest =>
    if blankChar c1 && blankChar c2 then collapseWs (c2 :: rest)
    else (if blankChar c1 then ' ' else c1) :: collapseWs (c2 :: rest)

/-- The quote-wrapping test of `_sanitize_text`:
`len(t) >= 2 and ((t[0] == '"' and t[-1] == '"') or (t[0] == "'" and t[-1] == "'"))`. -/
def isQuoteWrapped (l : List Char) : Bool :=
  decide (2 ≤ l.length) &&
    ((l.head? = some dquoteChar && l.getLast? = some dquoteChar) ||
     (l.head? = some squoteChar && l.getLast? = some squoteChar))

/-- `t[1:-1].strip()` applied when `isQuoteWrapped`. -/
def quoteStrip (l : List Char) : List Char :=
  if isQuoteWrapped l then pyStrip (l.drop 1).dropLast else l

/-- The bracket test of `_extract_text_from_possible_json`:
`(s.startswith("{") and s.endswith("}")) or (s.startswith("[") and s.endswith("]"))`. -/
def isJsonWrapped (l : List Char) : Bool :=
  (l.head? = some lbraceChar && l.getLast? = some rbraceChar) ||
  (l.head? = some lbrackChar && l.getLast? = some rbrackChar)

/-- JSON values as produced by Python's `json.loads` (numbers kept as lexemes;
they are never consumed by the code under verification). -/
inductive Json where
  | jnull : Json
  | jbool : Bool → Json
  | jnum : List Char → Json
  | jstr : List Char → Json
  | jarr : List Json → Json
  | jobj : List (List Char × Json) → Json

/-- JSON structural whitespace. -/
def jsonWsChar (c : Char) : Bool := c = ' ' || c = '\t' || c = '\n' || c = '\r'

def skipJWs (l : List Char) : List Char := l.dropWhile jsonWsChar

/-- Hex digit value. -/
def hexVal (c : Char) : Option Nat :=
  if '0' ≤ c ∧ c ≤ '9' then some (c.toNat - 48)
  else if 'a' ≤ c ∧ c ≤ 'f' then some (c.toNat - 87)
  else if 'A' ≤ c ∧ c ≤ 'F' then some (c.toNat - 55)
  else none

/-- String body after the opening quote: characters up to the closing quote,
decoding escapes; fails on invalid escapes and (as Python's strict decoder does)
on raw control characters.  `\uXXXX` is decoded through `Char.ofNat`
(surrogate pairs are not recombined; no such input occurs in this code base). -/
def parseJStrBody : List Char → Option (List Char × List Char)
  | [] => none
  | '\\' :: 'u' :: a :: b :: c :: d :: rest => do
    let va ← hexVal a
    let vb ← hexVal b
    let vc ← hexVal c
    let vd ← hexVal d
    let (s, r) ← parseJStrBody rest
    pure (Char.ofNat (((va * 16 + vb) * 16 + vc) * 16 + vd) :: s, r)
  | '\\' :: e :: rest => do
    let c ←
      if e = dquoteChar then some dquoteChar
      else if e = '\\' then some '\\'
      else if e = '/' then some '/'
      else if e = 'b' then some (Char.ofNat 8)
      else if e = 'f' then some (Char.ofNat 12)
      else if e = 'n' then some '\n'
      else if e = 'r' then some '\r'
      else if e = 't' then some '\t'
      else none
    let (s, r) ← parseJStrBody rest
    pure (c :: s, r)
  | c :: rest =>
    if c = dquoteChar then some ([], rest)
    else if c.toNat < 32 then none
    else do
      let (s, r) ← parseJStrBody rest
      pure (c :: s, r)

def isDigitChar (c : Char) : Bool := '0' ≤ c && c ≤ '9'

/-- Number lexeme, maximal munch as Python's `NUMBER_RE`
(`-?(?:0|[1-9]\d*)(?:\.\d+)?(?:[eE][-+]?\d+)?`); characters the regex does not
cover stay in the remainder (and then fail in the enclosing context, exactly
as in `json.loads`). -/
def parseJNum (l : List Char) : Option (List Char × List Char) :=
  let (neg, l1) := match l with
    | '-' :: r => (['-'], r)
    | _ => (([] : List Char), l)
  match l1 with
  | [] => none
  | c :: rest0 =>
    if ¬ isDigitChar c then none
    else
      let (intPart, rest1) :=
        if c = '0' then (['0'], rest0)
        else (l1.takeWhile isDigitChar, l1.dropWhile isDigitChar)
      let (fracPart, rest2) := match rest1 with
        | '.' :: r =>
          let ds := r.takeWhile isDigitChar
          if ds = [] then (([] : List Char), rest1)
          else ('.' :: ds, r.dropWhile isDigitChar)
        | _ => (([] : List Char), rest1)
      let (expPart, rest3) := match rest2 with
        | e :: r =>
          if e = 'e' || e = 'E' then
            let (sgn, r2) := match r with
              | s :: r3 => if s = '+' || s = '-' then ([s], r3) else (([] : List Char), r)
              | [] => (([] : List Char), r)
            let ds := r2.takeWhile isDigitChar
            if ds = [] then (([] : List Char), rest2)
            else (e :: (sgn ++ ds), r2.dropWhile isDigitChar)
          else (([] : List Char), rest2)
        | [] => (([] : List Char), rest2)
      some (neg ++ intPart ++ fracPart ++ expPart, rest3)

mutual

/-- One JSON value (fuel-indexed recursive descent, mirroring `json.loads`). -/
def parseJVal : Nat → List Char → Option (Json × List Char)
  | 0, _ => none
  | fuel + 1, l =>
    let l := skipJWs l
    match l with
    | [] => none
    | c :: rest =>
      if c = dquoteChar then
        match parseJStrBody rest with
        | some (s, r) => some (Json.jstr s, r)
        | none => none
      else if c = lbraceChar then
        let r := skipJWs rest
        match r with
        | c2 :: r2 => if c2 = rbraceChar then some (Json.jobj [], r2) else parseJMembers fuel r []
        | [] => none
      else if c = lbrackChar then
        let r := skipJWs rest
        match r with
        | c2 :: r2 => if c2 = rbrackChar then some (Json.jarr [], r2) else parseJItems fuel r []
        | [] => none
      else if ['t', 'r', 'u', 'e'].isPrefixOf l then some (Json.jbool true, l.drop 4)
      else if ['f', 'a', 'l', 's', 'e'].isPrefixOf l then some (Json.jbool false, l.drop 5)
      else if ['n', 'u', 'l', 'l'].isPrefixOf l then some (Json.jnull, l.drop 4)
      else if ['N', 'a', 'N'].isPrefixOf l then some (Json.jnum ['N', 'a', 'N'], l.drop 3)
      else if ['I', 'n', 'f', 'i', 'n', 'i', 't', 'y'].isPrefixOf l then
        some (Json.jnum ['I', 'n', 'f'], l.drop 8)
      else if ['-', 'I', 'n', 'f', 'i', 'n', 'i', 't', 'y'].isPrefixOf l then
        some (Json.jnum ['-', 'I', 'n', 'f'], l.drop 9)
      else
        match parseJNum l with
        | some (n, r) => some (Json.jnum n, r)
        | none => none

/-- Object members, first member expected at the head. -/
def parseJMembers : Nat → List Char → List (List Char × Json) →
    Option (Json × List Char)
  | 0, _, _ => none
  | fuel + 1, l, acc =>
    let l := skipJWs l
    match l with
    | c :: rest =>
      if c = dquoteChar then
        match parseJStrBody rest with
        | some (k, r) =>
          let r := skipJWs r
          match r with
          | ':' :: r2 =>
            match parseJVal fuel r2 with
            | some (v, r3) =>
              let r3 := skipJWs r3
              match r3 with
              | ',' :: r4 => parseJMembers fuel r4 (acc ++ [(k, v)])
              | c2 :: r4 =>
                if c2 = rbraceChar then some (Json.jobj (acc ++ [(k, v)]), r4) else none
              | [] => none
            | none => none
          | _ => none
        | none => none
      else none
    | [] => none

/-- Array items, first item expected at the head. -/
def parseJItems : Nat → List Char → List Json → Option (Json × List Char)
  | 0, _, _ => none
  | fuel + 1, l, acc =>
    match parseJVal fuel l with
    | some (v, r) =>
      let r := skipJWs r
      match r with
      | ',' :: r2 => parseJItems fuel r2 (acc ++ [v])
      | c :: r2 => if c = rbrackChar then some (Json.jarr (acc ++ [v]), r2) else none
      | [] => none
    | none => none

end

/-- `json.loads`: parse one value, demand only whitespace after it;
`none` models a raised `json.JSONDecodeError`. -/
def loads (l : List Char) : Option Json :=
  match parseJVal (l.length + 1) l with
  | some (v, rest) => if skipJWs rest = [] then some v else none
  | none => none

/-- `dict.get` on the association list built by `json.loads`
(duplicate keys: last occurrence wins, as in Python). -/
def jsonGet (fs : List (List Char × Json)) (k : List Char) : Option Json :=
  (fs.filter (fun p => p.1 = k)).getLast?.map (fun p => p.2)

/-- Key preference order of `_extract_text_from_possible_json`. -/
def extractKeys : List (List Char) :=
  [['t', 'e', 'x', 't'], ['r', 'e', 'p', 'l', 'y'],
   ['m', 'e', 's', 's', 'a', 'g', 'e'], ['o', 'u', 't', 'p', 'u', 't']]

/-- `for k in keys: v = obj.get(k); if isinstance(v, str) and v.strip(): return v.strip()`. -/
def tryStrKeys (fs : List (List Char × Json)) : List (List Char) → Option (List Char)
  | [] => none
  | k :: ks =>
    match jsonGet fs k with
    | some (Json.jstr v) =>
      let t := pyStrip v
      if t = [] then tryStrKeys fs ks else some t
    | _ => tryStrKeys fs ks

/-- `_extract_text_from_possible_json` of `suggestions.py`. -/
def extract_text_from_possible_json (raw : List Char) : List Char :=
  let s := pyStrip raw
  if s = [] then s
  else
    let s := match fenceGroup s with
      | some g => pyStrip g
      | none => s
    if isJsonWrapped s then
      match loads s with
      | some (Json.jobj fs) =>
        match tryStrKeys fs extractKeys with
        | some v => v
        | none => s
      | some (Json.jarr (first :: _)) =>
        match first with
        | Json.jobj fs =>
          match tryStrKeys fs extractKeys with
          | some v => v
          | none => s
        | _ => s
      | _ => s
    else s

/-- `_sanitize_text` of `suggestions.py`. -/
def sanitize_text (text : List Char) : List Char :=
  let t := extract_text_from_possible_json text
  let t := pyStrip (mapCR (replCRLF t))
  let t := subLeadingFence t
  let t := pyStrip (subTrailingFence t)
  let t := quoteStrip t
  pyStrip (collapseWs t)

/-- HTTP-level outcomes: an `HTTPException(status)` raised by the endpoint code,
a swallowed-or-raised `SQLAlchemyError`, or a Python `TypeError` (which the
endpoints do not catch). -/
inductive PyErr where
  | http : Nat → PyErr
  | typeErr : PyErr
deriving DecidableEq

/-- `_validate_text` of `suggestions.py`: sanitize, reject empty and >500 chars. -/
def validate_text (text : List Char) : Except PyErr (List Char) :=
  let t := sanitize_text text
  if t = [] then .error (.http 400)
  else if t.length > 500 then .error (.http 400)
  else .ok t

/-! ### Data model (from `models.py`)

Rows carry the columns the suggestion subsystem reads.  `created_at` is
modelled by the monotone insertion counter (the database assigns `now()`;
only its ordering is ever used, for `ORDER BY created_at DESC`).  Query
results preserve the list (insertion) order except where the code orders
explicitly. -/

structure SuggestionRow where
  id : Nat
  user_id : Option Nat
  text : List Char
  source : List Char
  is_approved : Bool
  created_at : Nat
deriving DecidableEq

structure SuggestionReactionRow where
  id : Nat
  suggestion_id : Nat
  user_id : Nat
  reaction : List Char
deriving DecidableEq

structure SuggestionSaveRow where
  id : Nat
  suggestion_id : Nat
  user_id : Nat
deriving DecidableEq

structure SuggestionCommentRow where
  id : Nat
  suggestion_id : Nat
  user_id : Nat
  text : List Char
  created_at : Nat
deriving DecidableEq

/-- `GlobalDailySuggestion`: day ↦ suggestion id (`day` as ordinal day number,
`date.toordinal()`); unique on `day`. -/
structure GlobalDailyRow where
  id : Nat
  suggestion_id : Nat
  day : Nat
deriving DecidableEq

structure DB where
  suggestions : List SuggestionRow
  reactions : List SuggestionReactionRow
  saves : List SuggestionSaveRow
  comments : List SuggestionCommentRow
  globalDaily : List GlobalDailyRow
  nextId : Nat
  nextCid : Nat
  nextGdId : Nat
deriving DecidableEq

def userSrc : List Char := ['u', 's', 'e', 'r']

def aiSrc : List Char := ['a', 'i']

def systemSrc : List Char := ['s', 'y', 's', 't', 'e', 'm']

def likeTok : List Char := ['l', 'i', 'k', 'e']

def dislikeTok : List Char := ['d', 'i', 's', 'l', 'i', 'k', 'e']

/-- `ORDER BY id ASC`. -/
def leById (a b : SuggestionRow) : Prop := a.id ≤ b.id

instance : DecidableRel leById := fun a b => Nat.decLe a.id b.id

instance : IsTotal SuggestionRow leById := ⟨fun a b => Nat.le_total a.id b.id⟩

instance : IsTrans SuggestionRow leById := ⟨fun _ _ _ h1 h2 => Nat.le_trans h1 h2⟩

/-- `ORDER BY created_at DESC`. -/
def geByCreated (a b : SuggestionRow) : Prop := b.created_at ≤ a.created_at

instance : DecidableRel geByCreated := fun a b => Nat.decLe b.created_at a.created_at

/-- `_likes_dislikes` (likes half). -/
def likesOf (db : DB) (sid : Nat) : Nat :=
  db.reactions.countP (fun r => decide (r.suggestion_id = sid ∧ r.reaction = likeTok))

/-- `_likes_dislikes` (dislikes half). -/
def dislikesOf (db : DB) (sid : Nat) : Nat :=
  db.reactions.countP (fun r => decide (r.suggestion_id = sid ∧ r.reaction = dislikeTok))

/-- `_is_saved`. -/
def isSavedOf (db : DB) (sid uid : Nat) : Bool :=
  db.saves.any (fun s => decide (s.suggestion_id = sid ∧ s.user_id = uid))

/-- `_get_fallback_global_tip` of `suggestions.py`: approved pool, preferring
source `system`/`ai`, ordered by ascending id; index `date.today().toordinal()
mod pool size`; 404 when the pool is empty. -/
def get_fallback_global_tip (db : DB) (today : Nat) : Except PyErr SuggestionRow :=
  let base := db.suggestions.filter (fun s => s.is_approved)
  let preferred :=
    List.insertionSort leById
      (base.filter (fun s => decide (s.source = systemSrc ∨ s.source = aiSrc)))
  let pool := if preferred.isEmpty then List.insertionSort leById base else preferred
  match pool with
  | [] => .error (.http 404)
  | p :: ps =>
    .ok ((p :: ps).get ⟨today % (p :: ps).length, Nat.mod_lt _ (Nat.succ_pos _)⟩)

structure DailyDTO where
  id : Nat
  user_id : Option Nat
  text : List Char
  likes : Nat
  dislikes : Nat
  is_saved : Bool
deriving DecidableEq

def mkDailyDTO (db : DB) (tip : SuggestionRow) (uid : Nat) : DailyDTO :=
  { id := tip.id, user_id := tip.user_id, text := tip.text,
    likes := likesOf db tip.id, dislikes := dislikesOf db tip.id,
    is_saved := isSavedOf db tip.id uid }

/-- `GET /suggestions/daily` (`get_daily_suggestion`): look up today's
`GlobalDailySuggestion` row, load the suggestion it points at, otherwise fall
back; performs no write (the returned `DB` is the state after the request). -/
def get_daily_suggestion (db : DB) (today uid : Nat) : DB × Except PyErr DailyDTO :=
  let row? := db.globalDaily.find? (fun g => decide (g.day = today))
  let tip? : Option SuggestionRow :=
    match row? with
    | some row => db.suggestions.find? (fun s => decide (s.id = row.suggestion_id))
    | none => none
  match tip? with
  | some tip => (db, .ok (mkDailyDTO db tip uid))
  | none =>
    match get_fallback_global_tip db today with
    | .ok tip => (db, .ok (mkDailyDTO db tip uid))
    | .error e => (db, .error e)

structure FeedDTO where
  id : Nat
  user_id : Option Nat
  text : List Char
  likes : Nat
  dislikes : Nat
  is_saved : Bool
deriving DecidableEq

/-- `GET /suggestions/feed` (`feed_suggestions`): approved, `source='user'`
suggestions with aggregated likes/dislikes and the caller's saved flag, newest
first, capped at 200. -/
def feed_suggestions (db : DB) (uid : Nat) : List FeedDTO :=
  let rows := db.suggestions.filter
    (fun s => s.is_approved && decide (s.source = userSrc))
  let sorted := List.insertionSort geByCreated rows
  (sorted.take 200).map (fun s =>
    { id := s.id, user_id := s.user_id, text := s.text,
      likes := likesOf db s.id, dislikes := dislikesOf db s.id,
      is_saved := isSavedOf db s.id uid })

/-- `POST /suggestions/` (`create_suggestion`): validate, insert a `source='user'`
row approved per the `AUTO_APPROVE_SUGGESTIONS` switch; one commit, rolled back
(state unchanged) with a 500 on persistence error. -/
def create_suggestion (db : DB) (uid : Nat) (text : List Char) (autoApprove : Bool)
    (commitOk : Bool) : DB × Except PyErr SuggestionRow :=
  match validate_text text with
  | .error e => (db, .error e)
  | .ok t =>
    let row : SuggestionRow :=
      { id := db.nextId, user_id := some uid, text := t, source := userSrc,
        is_approved := autoApprove, created_at := db.nextId }
    if commitOk then
      ({ db with suggestions := db.suggestions ++ [row], nextId := db.nextId + 1 }, .ok row)
    else (db, .error (.http 500))

/-- `POST /suggestions/comment` (`add_comment`): 404 when the suggestion does
not exist, then validate and insert; one commit with rollback on error. -/
def add_comment (db : DB) (uid sid : Nat) (text : List Char) (commitOk : Bool) :
    DB × Except PyErr SuggestionCommentRow :=
  match db.suggestions.find? (fun s => decide (s.id = sid)) with
  | none => (db, .error (.http 404))
  | some _ =>
    match validate_text text with
    | .error e => (db, .error e)
    | .ok t =>
      let row : SuggestionCommentRow :=
        { id := db.nextCid, suggestion_id := sid, user_id := uid, text := t,
          created_at := db.nextCid }
      if commitOk then
        ({ db with comments := db.comments ++ [row], nextCid := db.nextCid + 1 }, .ok row)
      else (db, .error (.http 500))

structure IngestResp where
  day : Nat
  suggestion_id : Nat
deriving DecidableEq

/-- Update the first `GlobalDailySuggestion` row for `day` (the `.first()` row)
to point at `sid`. -/
def updateDay : List GlobalDailyRow → Nat → Nat → List GlobalDailyRow
  | [], _, _ => []
  | g :: rest, day, sid =>
    if g.day = day then { g with suggestion_id := sid } :: rest
    else g :: updateDay rest day sid

/-- `POST /suggestions/ingest-daily` (`ingest_daily_suggestion`).  Two separate
transactions: first the approved `source='system'` suggestion is committed
(`commit1Ok`; on failure rollback and HTTP 500); then the day-mapping upsert is
committed (`commit2Ok`; on failure rollback and the exception is swallowed —
the request still answers `status: ok`).  `expectedKeyEnv` is the
`DAILY_INGEST_KEY` environment value, `apiKey` the `X-API-KEY` header. -/
def ingest_daily_suggestion (db : DB) (expectedKeyEnv apiKey : List Char)
    (text : List Char) (today : Nat) (commit1Ok commit2Ok : Bool) :
    DB × Except PyErr IngestResp :=
  let expected := pyStrip expectedKeyEnv
  if expected = [] then (db, .error (.http 500))
  else if apiKey ≠ expected then (db, .error (.http 401))
  else
    match validate_text text with
    | .error e => (db, .error e)
    | .ok t =>
      let srow : SuggestionRow :=
        { id := db.nextId, user_id := none, text := t, source := systemSrc,
          is_approved := true, created_at := db.nextId }
      if ¬ commit1Ok then (db, .error (.http 500))
      else
        let db1 := { db with suggestions := db.suggestions ++ [srow],
                             nextId := db.nextId + 1 }
        if commit2Ok then
          let db2 :=
            match db1.globalDaily.find? (fun g => decide (g.day = today)) with
            | some _ => { db1 with globalDaily := updateDay db1.globalDaily today srow.id }
            | none =>
              { db1 with
                globalDaily := db1.globalDaily ++ [⟨db1.nextGdId, srow.id, today⟩],
                nextGdId := db1.nextGdId + 1 }
          (db2, .ok ⟨today, srow.id⟩)
        else (db1, .ok ⟨today, srow.id⟩)

/-! ### AI client (`ai_client.py`) -/

/-- One attempt's observable outcome at the HTTP boundary: a transport error
(`httpx.HTTPError` / timeout) or a response with status code and decoded body. -/
inductive AIOutcome where
  | netErr : AIOutcome
  | resp : Nat → List Char → AIOutcome
deriving DecidableEq

/-- The distinct `AIClientError` causes raised inside one attempt. -/
inductive AITag where
  | noUrl : AITag
  | transport : AITag
  | httpStatus : AITag
  | emptyBody : AITag
  | blankBody : AITag
  | noReply : AITag
deriving DecidableEq

/-- Keys probed by `_extract_reply`. -/
def replyKeys : List (List Char) :=
  [['r', 'e', 'p', 'l', 'y'],
   ['t', 'e', 'x', 't', 'R', 'e', 's', 'p', 'o', 'n', 's', 'e'],
   ['t', 'e', 'x', 't'], ['o', 'u', 't', 'p', 'u', 't'],
   ['m', 'e', 's', 's', 'a', 'g', 'e']]

def dataKey : List Char := ['d', 'a', 't', 'a']

/-- The key loop of `_extract_reply` over a decoded dict. -/
def tryReplyKeys (fs : List (List Char × Json)) : List (List Char) → Option (List Char)
  | [] => none
  | k :: ks =>
    match jsonGet fs k with
    | some (Json.jstr v) =>
      let t := pyStrip v
      if t = [] then tryReplyKeys fs ks else some t
    | _ => tryReplyKeys fs ks

/-- `_extract_reply` of `ai_client.py`. -/
def extract_reply : Json → Option (List Char)
  | Json.jstr s =>
    let t := pyStrip s
    if t = [] then none else some t
  | Json.jobj fs =>
    match tryReplyKeys fs replyKeys with
    | some v => some v
    | none =>
      match jsonGet fs dataKey with
      | some (Json.jobj nested) => tryReplyKeys nested replyKeys
      | _ => none
  | Json.jarr (first :: _) => extract_reply first
  | _ => none

/-- One attempt of the retry loop in `generate_response`: status `>= 400` is an
error, then empty body, then blank decoded body; a body that is not JSON is
returned as plain text; otherwise the reply is extracted or the attempt fails. -/
def attemptEval : AIOutcome → Except AITag (List Char)
  | .netErr => .error .transport
  | .resp status body =>
    if status ≥ 400 then .error .httpStatus
    else if body.length = 0 then .error .emptyBody
    else
      let raw := pyStrip body
      if raw = [] then .error .blankBody
      else
        match loads body with
        | none => .ok raw
        | some data =>
          match extract_reply data with
          | some reply => .ok reply
          | none => .error .noReply

/-- The `for attempt in range(1, max_attempts + 1)` loop: on failure sleep
`1.0 * attempt` seconds and retry while attempts remain.  Returns the result,
the number of attempts performed, and the list of sleep durations. -/
def genLoop (env : Nat → AIOutcome) :
    Nat → Nat → List Nat → Except AITag (List Char) × Nat × List Nat
  | 0, attempt, sleeps => (.error .transport, attempt, sleeps)
  | remaining + 1, attempt, sleeps =>
    match attemptEval (env attempt) with
    | .ok reply => (.ok reply, attempt, sleeps)
    | .error e =>
      if remaining = 0 then (.error e, attempt, sleeps)
      else genLoop env remaining (attempt + 1) (sleeps ++ [attempt])

/-- `generate_response` of `ai_client.py` (`max_attempts = 3`), driven by the
per-attempt outcomes `env`; `urlConfigured` models `AI_WEBHOOK_URL` being set. -/
def generate_response (urlConfigured : Bool) (env : Nat → AIOutcome) :
    Except AITag (List Char) × Nat × List Nat :=
  if urlConfigured then genLoop env 3 1 [] else (.error .noUrl, 0, [])

/-! ### `POST /suggestions/generate` (`generate_daily_ai_suggestion`)

`_generate_ai_suggestion_text` invokes
`generate_response(message=..., history=[], user_id=user_id, user_data=...,
user_context=...)`, but `ai_client.generate_response` accepts only
`(message, history, user_context, user_data)`.  Binding the keyword arguments
therefore raises `TypeError` before any request is made; the endpoint catches
only `HTTPException` and `SQLAlchemyError`, so the `TypeError` escapes. -/

/-- Parameter names of `ai_client.generate_response`. -/
def generateResponseParams : List (List Char) :=
  [['m', 'e', 's', 's', 'a', 'g', 'e'],
   ['h', 'i', 's', 't', 'o', 'r', 'y'],
   ['u', 's', 'e', 'r', '_', 'c', 'o', 'n', 't', 'e', 'x', 't'],
   ['u', 's', 'e', 'r', '_', 'd', 'a', 't', 'a']]

/-- Keyword arguments used at the call site in `_generate_ai_suggestion_text`. -/
def generateCallKwargs : List (List Char) :=
  [['m', 'e', 's', 's', 'a', 'g', 'e'],
   ['h', 'i', 's', 't', 'o', 'r', 'y'],
   ['u', 's', 'e', 'r', '_', 'i', 'd'],
   ['u', 's', 'e', 'r', '_', 'd', 'a', 't', 'a'],
   ['u', 's', 'e', 'r', '_', 'c', 'o', 'n', 't', 'e', 'x', 't']]

/-- Python keyword binding succeeds only when every keyword names a parameter. -/
def callBindingOk : Bool :=
  generateCallKwargs.all (fun k => generateResponseParams.contains k)

/-- `POST /suggestions/generate`: on the intended path a failed generation or a
failed validation/commit degrades to the global fallback tip; but the keyword
binding raises `TypeError` first, which the `except (HTTPException,
SQLAlchemyError)` clause does not catch. -/
def generate_daily_ai_suggestion (db : DB) (uid : Nat) (urlConfigured : Bool)
    (env : Nat → AIOutcome) (commitOk : Bool) (today : Nat) :
    DB × Except PyErr SuggestionRow :=
  if callBindingOk then
    match generate_response urlConfigured env with
    | (.error _, _, _) =>
      -- AIClientError → HTTPException(502) → caught → fallback
      (db, get_fallback_global_tip db today)
    | (.ok reply, _, _) =>
      match validate_text reply with
      | .error _ =>
        -- HTTPException(400) → caught → fallback
        (db, get_fallback_global_tip db today)
      | .ok t =>
        let row : SuggestionRow :=
          { id := db.nextId, user_id := some uid, text := t, source := aiSrc,
            is_approved := true, created_at := db.nextId }
        if commitOk then
          ({ db with suggestions := db.suggestions ++ [row], nextId := db.nextId + 1 },
            .ok row)
        else
          -- SQLAlchemyError → caught, rollback → fallback
          (db, get_fallback_global_tip db today)
  else (db, .error .typeErr)

/-! ### Sample stores and claim-level inputs -/

/-- The pool the specification describes for the deterministic fallback:
approved suggestions tagged `system`/`ai` ordered by ascending identifier if
that subset is non-empty, else all approved suggestions ordered by ascending
identifier.  Written from the spec wording, to be compared against
`_get_fallback_global_tip`. -/
def specFallbackPool (db : DB) : List SuggestionRow :=
  let approved := db.suggestions.filter (fun s => s.is_approved)
  let tagged := approved.filter (fun s => decide (s.source = systemSrc ∨ s.source = aiSrc))
  if tagged = [] then List.insertionSort leById approved
  else List.insertionSort leById tagged

/-- Strict id order (used to compare sorted pools of distinct-id rows). -/
def ltById (a b : SuggestionRow) : Prop := a.id < b.id

instance : IsAntisymm SuggestionRow ltById :=
  ⟨fun a b h1 h2 => absurd h1 (Nat.lt_asymm h2)⟩

/-- Well-formedness mirrored from the schema: primary keys below the sequence
counters and at most one `GlobalDailySuggestion` row per day
(`uq_global_daily_suggestion_day`). -/
def WFdb (db : DB) : Prop :=
  (∀ s ∈ db.suggestions, s.id < db.nextId) ∧
  (db.globalDaily.map (fun g => g.day)).Nodup

instance : DecidablePred WFdb := fun db => by
  unfold WFdb
  exact inferInstance

def tipOne : List Char := ['t', 'i', 'p', ' ', 'o', 'n', 'e']

def tipTwo : List Char := ['t', 'i', 'p', ' ', 't', 'w', 'o']

def tipThree : List Char := ['t', 'i', 'p', ' ', 't', 'h', 'r', 'e', 'e']

/-- A store with one approved suggestion of each source, no day mapping. -/
def sampleDB : DB :=
  { suggestions :=
      [⟨1, none, tipOne, systemSrc, true, 1⟩,
       ⟨2, some 5, tipTwo, userSrc, true, 2⟩,
       ⟨3, none, tipThree, aiSrc, true, 3⟩],
    reactions := [], saves := [], comments := [], globalDaily := [],
    nextId := 4, nextCid := 1, nextGdId := 1 }

/-- A double-quoted string whose content is itself single-quoted: one
sanitisation pass peels the outer quotes, a second pass peels the inner ones. -/
def quoteNested : List Char := [dquoteChar, squoteChar, 'a', squoteChar, dquoteChar]

def helloWorld : List Char := ['h', 'e', 'l', 'l', 'o', ' ', 'w', 'o', 'r', 'l', 'd']

/-- 501 raw characters containing a double space: sanitisation collapses it to
500 characters. -/
def longInput501 : List Char :=
  List.replicate 250 'a' ++ [' ', ' '] ++ List.replicate 249 'a'

/-- The literal `{"text": "hi"}`. -/
def jsonShapedInput : List Char :=
  [lbraceChar, dquoteChar, 't', 'e', 'x', 't', dquoteChar, ':', ' ',
   dquoteChar, 'h', 'i', dquoteChar, rbraceChar]

def ingestKey : List Char := ['t', 'i', 'p', 'k', 'e', 'y']

def freshTip : List Char := ['f', 'r', 'e', 's', 'h', ' ', 't', 'i', 'p']

def firstTip : List Char := ['f', 'i', 'r', 's', 't', ' ', 't', 'i', 'p']

def secondTip : List Char := ['s', 'e', 'c', 'o', 'n', 'd', ' ', 't', 'i', 'p']

def okBody : List Char := ['o', 'k']

def errBody : List Char := ['e', 'r', 'r']

def boomBody : List Char := ['b', 'o', 'o', 'm']

/-- First attempt answers HTTP 404 (a definitive client error), second answers
HTTP 200 with a plain-text body. -/
def env40x : Nat → AIOutcome :=
  fun n => if n = 1 then .resp 404 errBody else .resp 200 okBody

/-- Every attempt answers HTTP 500. -/
def envFail3 : Nat → AIOutcome := fun _ => .resp 500 boomBody

/-- `sampleDB` with the suggestion rows listed in a different order (as another
replica/process might materialise them). -/
def sampleDBperm : DB :=
  { sampleDB with
    suggestions :=
      [⟨3, none, tipThree, aiSrc, true, 3⟩,
       ⟨1, none, tipOne, systemSrc, true, 1⟩,
       ⟨2, some 5, tipTwo, userSrc, true, 2⟩] }

/-! ### String lemmas: stripping, collapsing, and fixed points of the sanitizer -/

theorem head?_dropWhile_not {α : Type} {p : α → Bool} :
    ∀ {l : List α} {c : α}, (l.dropWhile p).head? = some c → p c = false := by
  intro l
  induction l with
  | nil => intro c h; simp [List.dropWhile] at h
  | cons a t ih =>
    intro c h
    by_cases hp : p a
    · rw [List.dropWhile, hp] at h; exact ih h
    · rw [List.dropWhile] at h
      rw [Bool.eq_false_iff.mpr hp] at h
      simp at h
      rw [← h]
      exact Bool.eq_false_iff.mpr hp

theorem dropWhile_eq_self_of {α : Type} {p : α → Bool} {l : List α}
    (h : ∀ c, l.head? = some c → p c = false) : l.dropWhile p = l := by
  cases l with
  | nil => rfl
  | cons a t =>
    rw [List.dropWhile, h a rfl]

theorem stripLeft_eq_self {l : List Char}
    (h : ∀ c, l.head? = some c → pySpace c = false) : stripLeft l = l :=
  dropWhile_eq_self_of h

theorem stripRight_eq_self {l : List Char}
    (h : ∀ c, l.getLast? = some c → pySpace c = false) : stripRight l = l := by
  unfold stripRight
  rw [dropWhile_eq_self_of, List.reverse_reverse]
  intro c hc
  rw [List.head?_reverse] at hc
  exact h c hc

theorem stripRight_isPref (l : List Char) : stripRight l <+: l := by
  obtain ⟨t, ht⟩ := @List.dropWhile_suffix Char l.reverse pySpace
  refine ⟨t.reverse, ?_⟩
  have := congrArg List.reverse ht
  simpa [stripRight] using this

theorem stripLeft_suffix (l : List Char) : stripLeft l <:+ l :=
  List.dropWhile_suffix pySpace

theorem pyStrip_isInfix (l : List Char) : pyStrip l <:+: l :=
  (stripRight_isPref (stripLeft l)).isInfix.trans (stripLeft_suffix l).isInfix

theorem pyStrip_subset {l : List Char} : pyStrip l ⊆ l := (pyStrip_isInfix l).subset

theorem head?_of_pref {α : Type} {l₁ l : List α} (h : l₁ <+: l) {c : α}
    (hc : l₁.head? = some c) : l.head? = some c := by
  obtain ⟨t, rfl⟩ := h
  cases l₁ with
  | nil => simp at hc
  | cons a t₁ => simp at hc ⊢; exact hc

/-- Both ends of the string are free of Python whitespace. -/
def IsStrippedL (l : List Char) : Prop :=
  (∀ c, l.head? = some c → pySpace c = false) ∧
  (∀ c, l.getLast? = some c → pySpace c = false)

theorem isStripped_pyStrip (l : List Char) : IsStrippedL (pyStrip l) := by
  constructor
  · intro c h
    have hpre := stripRight_isPref (stripLeft l)
    exact head?_dropWhile_not (head?_of_pref hpre h)
  · intro c h
    unfold pyStrip stripRight at h
    rw [List.getLast?_reverse] at h
    exact head?_dropWhile_not h

theorem pyStrip_of_stripped {l : List Char} (h : IsStrippedL l) : pyStrip l = l := by
  unfold pyStrip
  rw [stripLeft_eq_self h.1, stripRight_eq_self h.2]

theorem mem_collapseWs : ∀ {l : List Char} {c : Char}, c ∈ collapseWs l → c = ' ' ∨ c ∈ l := by
  intro l
  induction l using collapseWs.induct with
  | case1 => intro c h; simp [collapseWs] at h
  | case2 x =>
    intro c h
    simp [collapseWs] at h
    by_cases hb : blankChar x
    · rw [if_pos hb] at h; exact Or.inl h
    · rw [if_neg hb] at h; exact Or.inr (by simp [h])
  | case3 c1 c2 rest hbb ih =>
    intro c h
    rw [collapseWs, if_pos hbb] at h
    rcases ih h with h | h
    · exact Or.inl h
    · exact Or.inr (List.mem_cons_of_mem _ h)
  | case4 c1 c2 rest hbb ih =>
    intro c h
    rw [collapseWs, if_neg hbb] at h
    rcases List.mem_cons.mp h with h | h
    · by_cases hb : blankChar c1
      · rw [h, if_pos hb]; exact Or.inl rfl
      · rw [h, if_neg hb]; exact Or.inr (List.mem_cons_self _ _)
    · rcases ih h with h | h
      · exact Or.inl h
      · exact Or.inr (List.mem_cons_of_mem _ h)

theorem head?_collapseWs : ∀ {x : Char} {xs : List Char},
    (collapseWs (x :: xs)).head? = some (if blankChar x then ' ' else x) := by
  intro x xs
  induction xs generalizing x with
  | nil => simp [collapseWs]
  | cons c2 r ih =>
    by_cases hbb : blankChar x && blankChar c2
    · rw [collapseWs, if_pos hbb]
      simp only [Bool.and_eq_true] at hbb
      rw [ih, if_pos hbb.1, if_pos hbb.2]
    · rw [collapseWs, if_neg hbb]
      simp

/-- No tabs and no two adjacent blanks: the invariant of `collapseWs` output. -/
def IsCollapsedL (l : List Char) : Prop :=
  (∀ c ∈ l, blankChar c = true → c = ' ') ∧
  l.Chain' (fun a b => ¬(blankChar a = true ∧ blankChar b = true))

theorem collapse_blank_space : ∀ {l : List Char} {c : Char},
    c ∈ collapseWs l → blankChar c = true → c = ' ' := by
  intro l
  induction l using collapseWs.induct with
  | case1 => intro c hm _; simp [collapseWs] at hm
  | case2 x =>
    intro c hm hb
    simp [collapseWs] at hm
    by_cases hx : blankChar x
    · rw [if_pos hx] at hm; exact hm
    · rw [if_neg hx] at hm; rw [hm] at hb; exact absurd hb (by simp [hx])
  | case3 c1 c2 rest hbb ih =>
    intro c hm hb
    rw [collapseWs, if_pos hbb] at hm
    exact ih hm hb
  | case4 c1 c2 rest hbb ih =>
    intro c hm hb
    rw [collapseWs, if_neg hbb] at hm
    rcases List.mem_cons.mp hm with h | h
    · by_cases hx : blankChar c1
      · rw [h, if_pos hx]
      · rw [h, if_neg hx] at hb ⊢; exact absurd hb (by simp [hx])
    · exact ih h hb

theorem chain'_collapseWs : ∀ {l : List Char},
    (collapseWs l).Chain' (fun a b => ¬(blankChar a = true ∧ blankChar b = true)) := by
  intro l
  induction l using collapseWs.induct with
  | case1 => simp [collapseWs]
  | case2 x => simp [collapseWs]
  | case3 c1 c2 rest hbb ih => rw [collapseWs, if_pos hbb]; exact ih
  | case4 c1 c2 rest hbb ih =>
    rw [collapseWs, if_neg hbb]
    refine List.chain'_cons'.mpr ⟨?_, ih⟩
    intro y hy
    rw [head?_collapseWs] at hy
    simp only [Option.mem_def, Option.some.injEq] at hy
    simp only [Bool.and_eq_true, not_and] at hbb ⊢
    intro h1 h2
    by_cases hb2 : blankChar c2
    · have hb1 : blankChar c1 = true := by
        by_cases hx : blankChar c1
        · exact hx
        · rw [if_neg hx] at h1; exact h1
      exact hbb hb1 hb2
    · rw [if_neg hb2] at hy
      rw [← hy] at h2
      exact absurd h2 (by simp [hb2])

theorem isCollapsed_collapseWs (l : List Char) : IsCollapsedL (collapseWs l) :=
  ⟨fun _ hm hb => collapse_blank_space hm hb, chain'_collapseWs⟩

theorem isCollapsed_of_isInfix {l l' : List Char} (h : IsCollapsedL l) (hi : l' <:+: l) :
    IsCollapsedL l' :=
  ⟨fun c hm hb => h.1 c (hi.subset hm) hb, List.Chain'.infix h.2 hi⟩

theorem collapseWs_eq_self : ∀ {l : List Char}, IsCollapsedL l → collapseWs l = l := by
  intro l
  induction l using collapseWs.induct with
  | case1 => intro _; rfl
  | case2 x =>
    intro h
    show [if blankChar x then ' ' else x] = [x]
    by_cases hx : blankChar x
    · rw [if_pos hx, h.1 x (List.mem_singleton_self x) hx]
    · rw [if_neg hx]
  | case3 c1 c2 rest hbb ih =>
    intro h
    exfalso
    have := List.chain'_cons'.mp h.2
    have hhd : (c2 :: rest).head? = some c2 := rfl
    have := this.1 c2 (by rw [hhd]; rfl)
    simp only [Bool.and_eq_true] at hbb
    exact this ⟨hbb.1, hbb.2⟩
  | case4 c1 c2 rest hbb ih =>
    intro h
    rw [collapseWs, if_neg hbb]
    have htail : IsCollapsedL (c2 :: rest) :=
      ⟨fun c hm hb => h.1 c (List.mem_cons_of_mem _ hm) hb, (List.chain'_cons'.mp h.2).2⟩
    rw [ih htail]
    by_cases hx : blankChar c1
    · rw [if_pos hx, h.1 c1 (List.mem_cons_self _ _) hx]
    · rw [if_neg hx]

/-- No carriage return present. -/
def NoCR (l : List Char) : Prop := '\r' ∉ l

theorem noCR_mapCR (l : List Char) : NoCR (mapCR l) := by
  intro hm
  rcases List.mem_map.mp hm with ⟨c, _, hc⟩
  by_cases h : c = '\r'
  · rw [if_pos h] at hc; exact absurd hc (by decide)
  · rw [if_neg h] at hc; exact h hc

theorem noCR_subset {l l' : List Char} (h : NoCR l) (hs : l' ⊆ l) : NoCR l' :=
  fun hm => h (hs hm)

theorem stripFenceOpen_subset {l r : List Char} (h : stripFenceOpen l = some r) : r ⊆ l := by
  unfold stripFenceOpen at h
  by_cases hp : fenceTok.isPrefixOf (stripLeft l)
  · simp only [hp, if_true, Option.some.injEq] at h
    subst h
    intro c hc
    have h1 := (List.dropWhile_suffix pySpace).subset hc
    have h2 : c ∈ (stripLeft l).drop 3 := by
      by_cases hj : isJsonWord (((stripLeft l).drop 3).take 4)
      · rw [if_pos hj] at h1
        exact List.drop_subset _ _ h1
      · rw [if_neg hj] at h1
        exact h1
    exact (stripLeft_suffix l).subset (List.drop_subset _ _ h2)
  · simp [hp] at h

theorem subLeadingFence_subset (l : List Char) : subLeadingFence l ⊆ l := by
  unfold subLeadingFence
  cases hf : stripFenceOpen l with
  | none => exact fun _ h => h
  | some r => exact stripFenceOpen_subset hf

theorem subTrailingFence_subset (l : List Char) : subTrailingFence l ⊆ l := by
  unfold subTrailingFence
  by_cases hs : hasSuffixL (stripRight l) fenceTok
  · rw [if_pos hs]
    intro c hc
    have h1 := (stripRight_isPref _).subset hc
    have h2 := List.take_subset _ _ h1
    exact (stripRight_isPref l).subset h2
  · rw [if_neg hs]
    exact fun _ h => h

theorem quoteStrip_subset (l : List Char) : quoteStrip l ⊆ l := by
  unfold quoteStrip
  by_cases hq : isQuoteWrapped l
  · rw [if_pos hq]
    intro c hc
    exact List.drop_subset _ _ (List.dropLast_subset _ (pyStrip_subset hc))
  · rw [if_neg hq]
    exact fun _ h => h

theorem sanitize_text_noCR (x : List Char) : NoCR (sanitize_text x) := by
  show NoCR (pyStrip (collapseWs (quoteStrip (pyStrip (subTrailingFence (subLeadingFence
    (pyStrip (mapCR (replCRLF (extract_text_from_possible_json x))))))))))
  have h1 : NoCR (pyStrip (mapCR (replCRLF (extract_text_from_possible_json x)))) :=
    noCR_subset (noCR_mapCR _) pyStrip_subset
  have h2 := noCR_subset h1 (subLeadingFence_subset _)
  have h3 := noCR_subset (noCR_subset (noCR_subset h2 (subTrailingFence_subset _)) pyStrip_subset)
    (quoteStrip_subset _)
  intro hm
  rcases mem_collapseWs (pyStrip_subset hm) with h | h
  · exact absurd h (by decide)
  · exact h3 h

theorem sanitize_text_stripped (x : List Char) : IsStrippedL (sanitize_text x) :=
  isStripped_pyStrip _

theorem sanitize_text_collapsed (x : List Char) : IsCollapsedL (sanitize_text x) :=
  isCollapsed_of_isInfix (isCollapsed_collapseWs _) (pyStrip_isInfix _)

theorem replCRLF_of_noCR : ∀ {l : List Char}, NoCR l → replCRLF l = l := by
  intro l h
  induction l using replCRLF.induct with
  | case1 rest ih => exact absurd (List.mem_cons_self _ _) h
  | case2 c rest hne ih =>
    rw [replCRLF]
    · rw [ih (fun hm => h (List.mem_cons_of_mem _ hm))]
    · exact hne
  | case3 => rfl

theorem mapCR_of_noCR : ∀ {l : List Char}, NoCR l → mapCR l = l := by
  intro l h
  induction l with
  | nil => rfl
  | cons c rest ih =>
    unfold mapCR at ih ⊢
    rw [List.map_cons, ih (fun hm => h (List.mem_cons_of_mem _ hm)), if_neg]
    intro he
    rw [he] at h
    exact h (List.mem_cons_self _ _)

theorem stripFenceOpen_eq_none {l : List Char} (h1 : IsStrippedL l)
    (h2 : fenceTok.isPrefixOf l = false) : stripFenceOpen l = none := by
  unfold stripFenceOpen
  rw [show stripLeft l = l from stripLeft_eq_self h1.1]
  simp [h2]

theorem subLeadingFence_eq_self {l : List Char} (h1 : IsStrippedL l)
    (h2 : fenceTok.isPrefixOf l = false) : subLeadingFence l = l := by
  unfold subLeadingFence
  rw [stripFenceOpen_eq_none h1 h2]

theorem fenceGroup_eq_none {l : List Char} (h1 : IsStrippedL l)
    (h2 : fenceTok.isPrefixOf l = false) : fenceGroup l = none := by
  unfold fenceGroup
  rw [stripFenceOpen_eq_none h1 h2]

theorem subTrailingFence_eq_self {l : List Char} (h1 : IsStrippedL l)
    (h2 : hasSuffixL l fenceTok = false) : subTrailingFence l = l := by
  unfold subTrailingFence
  rw [show stripRight l = l from stripRight_eq_self h1.2]
  simp [h2]

theorem quoteStrip_eq_self {l : List Char} (h : isQuoteWrapped l = false) :
    quoteStrip l = l := by
  unfold quoteStrip
  rw [h]
  simp

theorem extract_eq_self {l : List Char} (h1 : IsStrippedL l)
    (h2 : fenceTok.isPrefixOf l = false) (h4 : isJsonWrapped l = false) :
    extract_text_from_possible_json l = l := by
  unfold extract_text_from_possible_json
  rw [show pyStrip l = l from pyStrip_of_stripped h1]
  by_cases he : l = []
  · simp [he]
  · simp only [fenceGroup_eq_none h1 h2, h4, if_neg he]
    simp

theorem collapseWs_of_collapsed_strip {l : List Char} (h : IsCollapsedL l) :
    pyStrip (collapseWs l) = pyStrip l := by
  rw [collapseWs_eq_self h]

/-- A string that triggers none of the stripping rules is a fixed point of
`_sanitize_text`. -/
theorem sanitize_text_fixed {t : List Char} (h1 : IsStrippedL t) (hcr : NoCR t)
    (hcol : IsCollapsedL t) (hf1 : fenceTok.isPrefixOf t = false)
    (hf2 : hasSuffixL t fenceTok = false) (hq : isQuoteWrapped t = false)
    (hj : isJsonWrapped t = false) : sanitize_text t = t := by
  show pyStrip (collapseWs (quoteStrip (pyStrip (subTrailingFence (subLeadingFence
    (pyStrip (mapCR (replCRLF (extract_text_from_possible_json t))))))))) = t
  rw [extract_eq_self h1 hf1 hj, replCRLF_of_noCR hcr, mapCR_of_noCR hcr,
    pyStrip_of_stripped h1, subLeadingFence_eq_self h1 hf1,
    subTrailingFence_eq_self h1 hf2, pyStrip_of_stripped h1,
    quoteStrip_eq_self hq, collapseWs_eq_self hcol, pyStrip_of_stripped h1]

/-! ### Claims -/

/-- C4: the claim `sanitize(sanitize(x)) == sanitize(x)` for any input x fails:
for the five-character input `"'a'"` (a double-quoted single-quoted letter) one
pass yields `'a'` and a second pass yields `a`. -/
theorem claim_C4_counterexample :
    ¬ sanitize_text (sanitize_text quoteNested) = sanitize_text quoteNested := by
  decide

/-- C4 (amended): sanitisation is idempotent for every input whose sanitised
form does not itself still trigger a stripping rule — i.e. whenever
`sanitize(x)` does not start with a code fence, does not end with a code fence,
is not wrapped in matching single or double quotes, and is not brace/bracket
wrapped like JSON, then `sanitize(sanitize(x)) = sanitize(x)`. -/
theorem claim_C4 (x : List Char)
    (h1 : fenceTok.isPrefixOf (sanitize_text x) = false)
    (h2 : hasSuffixL (sanitize_text x) fenceTok = false)
    (h3 : isQuoteWrapped (sanitize_text x) = false)
    (h4 : isJsonWrapped (sanitize_text x) = false) :
    sanitize_text (sanitize_text x) = sanitize_text x :=
  sanitize_text_fixed (sanitize_text_stripped x) (sanitize_text_noCR x)
    (sanitize_text_collapsed x) h1 h2 h3 h4

/-- C4 witness: the hypotheses hold and idempotence follows for a plain input. -/
theorem claim_C4_witness :
    sanitize_text (sanitize_text helloWorld) = sanitize_text helloWorld :=
  claim_C4 helloWorld (by decide) (by decide) (by decide) (by decide)

/-- C1: the claim fails — on a day with no `GlobalDailySuggestion` row the
selector neither invokes the Generator nor persists anything: with an empty
mapping table the request leaves the store unchanged (no new `Suggestion`, the
mapping table still empty) and serves the deterministic fallback (id 1 for day
10 over the two `system`/`ai` rows of `sampleDB`). -/
theorem claim_C1_counterexample :
    sampleDB.globalDaily = [] ∧
    (get_daily_suggestion sampleDB 10 5).1 = sampleDB ∧
    ((get_daily_suggestion sampleDB 10 5).2).toOption.map (fun d => d.id) = some 1 := by
  refine ⟨rfl, ?_, ?_⟩ <;> decide

/-- C1 (amended): on a day with no `GlobalDailySuggestion` row,
`GET /suggestions/daily` performs no generation and no write — the store is
returned unchanged and the response is exactly the deterministic fallback
result (404 when the approved pool is empty). -/
theorem claim_C1 (db : DB) (today uid : Nat)
    (h : db.globalDaily.find? (fun g => decide (g.day = today)) = none) :
    (get_daily_suggestion db today uid).1 = db ∧
    (get_daily_suggestion db today uid).2 =
      (match get_fallback_global_tip db today with
        | .ok tip => .ok (mkDailyDTO db tip uid)
        | .error e => .error e) := by
  unfold get_daily_suggestion
  simp only [h]
  cases get_fallback_global_tip db today <;> simp

/-- C1 witness. -/
theorem claim_C1_witness :
    (get_daily_suggestion sampleDB 10 5).1 = sampleDB ∧
    (get_daily_suggestion sampleDB 10 5).2 =
      (match get_fallback_global_tip sampleDB 10 with
        | .ok tip => .ok (mkDailyDTO sampleDB tip 5)
        | .error e => .error e) :=
  claim_C1 sampleDB 10 5 (by decide)

/-- C2: the code contradicts the claimed graceful degradation — every call to
`POST /suggestions/generate` evaluates
`generate_response(message=..., history=[], user_id=..., user_data=...,
user_context=...)`, whose keyword binding fails (`generate_response` has no
`user_id` parameter), raising a `TypeError` that the endpoint's
`except (HTTPException, SQLAlchemyError)` clause does not catch: the request
ends in a server error, never the fallback tip. -/
theorem claim_C2 (db : DB) (uid : Nat) (urlConfigured : Bool)
    (env : Nat → AIOutcome) (commitOk : Bool) (today : Nat) :
    callBindingOk = false ∧
    generate_daily_ai_suggestion db uid urlConfigured env commitOk today =
      (db, .error .typeErr) := by
  refine ⟨by decide, ?_⟩
  unfold generate_daily_ai_suggestion
  rw [show callBindingOk = false by decide]
  simp

theorem insertionSort_eq_nil_iff {r : SuggestionRow → SuggestionRow → Prop}
    [DecidableRel r] {l : List SuggestionRow} :
    List.insertionSort r l = [] ↔ l = [] := by
  constructor
  · intro h
    have hp := (List.perm_insertionSort r l).symm
    rw [h] at hp
    exact hp.eq_nil
  · intro h
    rw [h]
    rfl

theorem pairwise_lt_of_sorted_nodup {l : List SuggestionRow}
    (hs : List.Pairwise leById l) (hn : (l.map (fun s => s.id)).Nodup) :
    List.Pairwise ltById l := by
  have hne : List.Pairwise (fun a b : SuggestionRow => a.id ≠ b.id) l :=
    List.pairwise_map.mp hn
  exact (hs.and hne).imp (fun h => Nat.lt_of_le_of_ne h.1 h.2)

theorem insertionSort_eq_of_perm {l1 l2 : List SuggestionRow}
    (hp : l1.Perm l2) (hn : (l1.map (fun s => s.id)).Nodup) :
    List.insertionSort leById l1 = List.insertionSort leById l2 := by
  have hperm : (List.insertionSort leById l1).Perm (List.insertionSort leById l2) :=
    (List.perm_insertionSort _ l1).trans (hp.trans (List.perm_insertionSort _ l2).symm)
  have hn1 : ((List.insertionSort leById l1).map (fun s => s.id)).Nodup :=
    (((List.perm_insertionSort leById l1).map _).nodup_iff).mpr hn
  have hn2 : ((List.insertionSort leById l2).map (fun s => s.id)).Nodup :=
    (((List.perm_insertionSort leById l2).map _).nodup_iff).mpr
      (((hp.map _).nodup_iff).mp hn)
  have hs1 := pairwise_lt_of_sorted_nodup (List.sorted_insertionSort leById l1) hn1
  have hs2 := pairwise_lt_of_sorted_nodup (List.sorted_insertionSort leById l2) hn2
  exact List.eq_of_perm_of_sorted hperm hs1 hs2

theorem nodup_ids_filter {l : List SuggestionRow} (p : SuggestionRow → Bool)
    (hn : (l.map (fun s => s.id)).Nodup) :
    ((l.filter p).map (fun s => s.id)).Nodup :=
  hn.sublist ((l.filter_sublist).map _)

/-- `_get_fallback_global_tip` computes exactly `pool[today mod N]` over the
spec's pool, and 404 on the empty pool. -/
theorem get_fallback_eq (db : DB) (today : Nat) :
    get_fallback_global_tip db today =
      (match (specFallbackPool db).get? (today % (specFallbackPool db).length) with
        | some tip => Except.ok tip
        | none => Except.error (PyErr.http 404)) := by
  unfold get_fallback_global_tip specFallbackPool
  simp only []
  by_cases ht : ((db.suggestions.filter (fun s => s.is_approved)).filter
      (fun s => decide (s.source = systemSrc ∨ s.source = aiSrc))) = []
  · have h1 : (List.insertionSort leById ((db.suggestions.filter (fun s => s.is_approved)).filter
        (fun s => decide (s.source = systemSrc ∨ s.source = aiSrc)))).isEmpty = true := by
      rw [List.isEmpty_iff, insertionSort_eq_nil_iff]
      exact ht
    rw [if_pos h1, if_pos ht]
    cases hp : List.insertionSort leById (db.suggestions.filter (fun s => s.is_approved)) with
    | nil => simp
    | cons p ps =>
      rw [List.get?_eq_get (Nat.mod_lt _ (by simp))]
  · have h1 : ¬ (List.insertionSort leById ((db.suggestions.filter
        (fun s => s.is_approved)).filter
        (fun s => decide (s.source = systemSrc ∨ s.source = aiSrc)))).isEmpty = true := by
      rw [List.isEmpty_iff, insertionSort_eq_nil_iff]
      exact ht
    rw [if_neg h1, if_neg ht]
    cases hp : List.insertionSort leById ((db.suggestions.filter
        (fun s => s.is_approved)).filter
        (fun s => decide (s.source = systemSrc ∨ s.source = aiSrc))) with
    | nil => simp
    | cons p ps =>
      rw [List.get?_eq_get (Nat.mod_lt _ (by simp))]

theorem specFallbackPool_eq_of_perm {db1 db2 : DB}
    (hp : db1.suggestions.Perm db2.suggestions)
    (hn : (db1.suggestions.map (fun s => s.id)).Nodup) :
    specFallbackPool db1 = specFallbackPool db2 := by
  unfold specFallbackPool
  simp only []
  have hap : (db1.suggestions.filter (fun s => s.is_approved)).Perm
      (db2.suggestions.filter (fun s => s.is_approved)) := hp.filter _
  have htp : ((db1.suggestions.filter (fun s => s.is_approved)).filter
      (fun s => decide (s.source = systemSrc ∨ s.source = aiSrc))).Perm
      ((db2.suggestions.filter (fun s => s.is_approved)).filter
      (fun s => decide (s.source = systemSrc ∨ s.source = aiSrc))) := hap.filter _
  have hnap := nodup_ids_filter (fun s => s.is_approved) hn
  have hntag := nodup_ids_filter (fun s => decide (s.source = systemSrc ∨ s.source = aiSrc)) hnap
  by_cases ht : ((db1.suggestions.filter (fun s => s.is_approved)).filter
      (fun s => decide (s.source = systemSrc ∨ s.source = aiSrc))) = []
  · have ht2 : ((db2.suggestions.filter (fun s => s.is_approved)).filter
        (fun s => decide (s.source = systemSrc ∨ s.source = aiSrc))) = [] := by
      rw [ht] at htp
      exact htp.symm.eq_nil
    rw [if_pos ht, if_pos ht2]
    exact insertionSort_eq_of_perm hap hnap
  · have ht2 : ¬ ((db2.suggestions.filter (fun s => s.is_approved)).filter
        (fun s => decide (s.source = systemSrc ∨ s.source = aiSrc))) = [] := by
      intro h
      rw [h] at htp
      exact ht htp.eq_nil
    rw [if_neg ht, if_neg ht2]
    exact insertionSort_eq_of_perm htp hntag

/-- C3: the deterministic fallback: `_get_fallback_global_tip` returns exactly
`pool[ordinal_day mod N]` over the spec's pool (approved rows tagged
`system`/`ai` by ascending id if any, else all approved rows by ascending id),
reports a 404-equivalent on the empty pool (the pool is empty exactly when no
approved suggestion exists, so no modulo-by-zero), and the result is
independent of the order in which the rows are materialised. -/
theorem claim_C3 (db : DB) (today : Nat) :
    (get_fallback_global_tip db today =
      (match (specFallbackPool db).get? (today % (specFallbackPool db).length) with
        | some tip => Except.ok tip
        | none => Except.error (PyErr.http 404))) ∧
    (specFallbackPool db = [] ↔ (db.suggestions.filter (fun s => s.is_approved)) = []) ∧
    (∀ db2 : DB, db.suggestions.Perm db2.suggestions →
      (db.suggestions.map (fun s => s.id)).Nodup →
      get_fallback_global_tip db today = get_fallback_global_tip db2 today) := by
  refine ⟨get_fallback_eq db today, ?_, ?_⟩
  · unfold specFallbackPool
    simp only []
    by_cases ht : ((db.suggestions.filter (fun s => s.is_approved)).filter
        (fun s => decide (s.source = systemSrc ∨ s.source = aiSrc))) = []
    · rw [if_pos ht, insertionSort_eq_nil_iff]
    · rw [if_neg ht, insertionSort_eq_nil_iff]
      constructor
      · intro h
        exact absurd h ht
      · intro h
        exact absurd (by rw [h]; rfl) ht
  · intro db2 hp hn
    rw [get_fallback_eq db today, get_fallback_eq db2 today,
      specFallbackPool_eq_of_perm hp hn]

/-- C3 witness: two stores holding the same rows in different order agree on
the fallback tip, and the pool equation holds concretely. -/
theorem claim_C3_witness :
    (get_fallback_global_tip sampleDB 10 =
      (match (specFallbackPool sampleDB).get? (10 % (specFallbackPool sampleDB).length) with
        | some tip => Except.ok tip
        | none => Except.error (PyErr.http 404))) ∧
    get_fallback_global_tip sampleDB 10 = get_fallback_global_tip sampleDBperm 10 :=
  ⟨(claim_C3 sampleDB 10).1,
   (claim_C3 sampleDB 10).2.2 sampleDBperm (by decide) (by decide)⟩

/-- C5: the claim fails in its "never retries a definitive 4xx" part — when the
first attempt answers HTTP 404, `generate_response` still performs a second
attempt (which here succeeds), because the retry clause catches every
`AIClientError` including the one raised for `status_code >= 400`. -/
theorem claim_C5_counterexample :
    env40x 1 = AIOutcome.resp 404 errBody ∧
    (generate_response true env40x).2.1 = 2 ∧
    (generate_response true env40x).1 = Except.ok okBody := by
  refine ⟨rfl, by decide, rfl⟩

/-- C5 (amended): the AI call performs at most 3 attempts; before each retry it
sleeps `1.0 * attempt` seconds (linear backoff, so the sleep list is `[]`,
`[1]` or `[1, 2]`); and it retries after **any** failed attempt — transient
network errors, empty bodies, unextractable replies and also definitive 4xx
client errors — as long as attempts remain: the attempt count is exactly 1 if
the first attempt succeeds, else 2 if the second succeeds, else 3 (all
attempts exhausted on persistent failure), and whenever a reached attempt `k`
fails with `k < 3`, attempt `k + 1` is performed. -/
theorem claim_C5 (env : Nat → AIOutcome) :
    (generate_response true env).2.1 ≤ 3 ∧
    (generate_response true env).2.2 =
      (List.range ((generate_response true env).2.1 - 1)).map Nat.succ ∧
    (generate_response true env).2.1 =
      (if (attemptEval (env 1)).isOk then 1
       else if (attemptEval (env 2)).isOk then 2 else 3) ∧
    (∀ k e, k < 3 → k ≤ (generate_response true env).2.1 →
      attemptEval (env k) = Except.error e →
      k + 1 ≤ (generate_response true env).2.1) := by
  cases h1 : attemptEval (env 1) with
  | ok r =>
    have hA : (generate_response true env).2.1 = 1 := by
      simp [generate_response, genLoop, h1]
    have hS : (generate_response true env).2.2 = [] := by
      simp [generate_response, genLoop, h1]
    refine ⟨by omega, by rw [hS, hA]; rfl, by rw [hA]; rfl, ?_⟩
    intro k e hklt hkle he
    rw [hA] at hkle ⊢
    interval_cases k
    · omega
    · rw [h1] at he
      exact absurd he (by simp)
  | error e1 =>
    cases h2 : attemptEval (env 2) with
    | ok r =>
      have hA : (generate_response true env).2.1 = 2 := by
        simp [generate_response, genLoop, h1, h2]
      have hS : (generate_response true env).2.2 = [1] := by
        simp [generate_response, genLoop, h1, h2]
      refine ⟨by omega, by rw [hS, hA]; rfl, by rw [hA]; rfl, ?_⟩
      intro k e hklt hkle he
      rw [hA] at hkle ⊢
      interval_cases k
      · omega
      · omega
      · rw [h2] at he
        exact absurd he (by simp)
    | error e2 =>
      cases h3 : attemptEval (env 3) with
      | ok r =>
        have hA : (generate_response true env).2.1 = 3 := by
          simp [generate_response, genLoop, h1, h2, h3]
        have hS : (generate_response true env).2.2 = [1, 2] := by
          simp [generate_response, genLoop, h1, h2, h3]
        refine ⟨by omega, by rw [hS, hA]; rfl, by rw [hA]; rfl, ?_⟩
        intro k e hklt hkle he
        rw [hA] at hkle ⊢
        omega
      | error e3 =>
        have hA : (generate_response true env).2.1 = 3 := by
          simp [generate_response, genLoop, h1, h2, h3]
        have hS : (generate_response true env).2.2 = [1, 2] := by
          simp [generate_response, genLoop, h1, h2, h3]
        refine ⟨by omega, by rw [hS, hA]; rfl, by rw [hA]; rfl, ?_⟩
        intro k e hklt hkle he
        rw [hA] at hkle ⊢
        omega

/-- C5 witness: three straight HTTP 500 responses exhaust all three attempts —
the attempt count equals exactly 3, with sleeps `[1, 2]` — and the retry
property fires at the reached failing second attempt, forcing the third. -/
theorem claim_C5_witness :
    (generate_response true envFail3).2.1 = 3 ∧
    (generate_response true envFail3).2.2 = [1, 2] ∧
    3 ≤ (generate_response true envFail3).2.1 := by
  have h := claim_C5 envFail3
  have h3 : (generate_response true envFail3).2.1 = 3 := h.2.2.1.trans rfl
  refine ⟨h3, ?_, ?_⟩
  · rw [h.2.1, h3]
    rfl
  · exact h.2.2.2 2 AITag.httpStatus (by decide) (by rw [h3]; decide) rfl

/-- C6: the claim fails for ingest-daily — with the suggestion commit
succeeding and the mapping commit failing, the request still reports success
(`status: ok`) while the new suggestion is persisted and the day's
`GlobalDailySuggestion` mapping is not: partial state with a success report. -/
theorem claim_C6_counterexample :
    (ingest_daily_suggestion sampleDB ingestKey ingestKey freshTip 10 true false).2 =
      Except.ok ⟨10, 4⟩ ∧
    (ingest_daily_suggestion sampleDB ingestKey ingestKey freshTip 10 true false).1.suggestions.length =
      sampleDB.suggestions.length + 1 ∧
    (ingest_daily_suggestion sampleDB ingestKey ingestKey freshTip 10 true false).1.globalDaily = [] := by
  refine ⟨rfl, by decide, rfl⟩

/-- C6 (amended): each individual commit is atomic — `create_suggestion` is a
single transaction that on persistence error rolls back, reports HTTP 500 and
leaves no partial state, and the ingest-daily suggestion insert behaves the
same — but ingest-daily as a whole is two transactions: when its second
(mapping) commit fails, the rollback is silent, the request still reports
success, and the suggestion stays persisted without the day mapping. -/
theorem claim_C6 (db : DB) (ek ak txt : List Char) (today : Nat) (c2 : Bool)
    (uid : Nat) (aa : Bool) (t : List Char)
    (hek : pyStrip ek ≠ []) (hak : ak = pyStrip ek)
    (hv : validate_text txt = Except.ok t) :
    (ingest_daily_suggestion db ek ak txt today false c2 =
      (db, Except.error (PyErr.http 500))) ∧
    ((ingest_daily_suggestion db ek ak txt today true false).1.suggestions =
      db.suggestions ++ [⟨db.nextId, none, t, systemSrc, true, db.nextId⟩]) ∧
    ((ingest_daily_suggestion db ek ak txt today true false).1.globalDaily =
      db.globalDaily) ∧
    ((ingest_daily_suggestion db ek ak txt today true false).2 =
      Except.ok ⟨today, db.nextId⟩) ∧
    (create_suggestion db uid txt aa false = (db, Except.error (PyErr.http 500))) ∧
    ((create_suggestion db uid txt aa true).1.suggestions =
      db.suggestions ++ [⟨db.nextId, some uid, t, userSrc, aa, db.nextId⟩]) ∧
    ((create_suggestion db uid txt aa true).2 =
      Except.ok ⟨db.nextId, some uid, t, userSrc, aa, db.nextId⟩) := by
  have hne2 : ¬ (ak ≠ pyStrip ek) := by rw [hak]; simp
  refine ⟨?_, ?_, ?_, ?_, ?_, ?_, ?_⟩ <;>
    simp [ingest_daily_suggestion, create_suggestion, hek, hne2, hak, hv]

/-- C6 witness. -/
theorem claim_C6_witness :
    (ingest_daily_suggestion sampleDB ingestKey ingestKey freshTip 10 false true =
      (sampleDB, Except.error (PyErr.http 500))) ∧
    ((ingest_daily_suggestion sampleDB ingestKey ingestKey freshTip 10 true false).1.globalDaily =
      sampleDB.globalDaily) ∧
    (create_suggestion sampleDB 5 freshTip true false =
      (sampleDB, Except.error (PyErr.http 500))) := by
  have h := claim_C6 sampleDB ingestKey ingestKey freshTip 10 true 5 true freshTip
    (by decide) rfl rfl
  exact ⟨h.1, h.2.2.1, h.2.2.2.2.1⟩

/-- C7: the claim fails in its "exactly 501 characters is rejected" part — a
501-character submission containing a double space is accepted, because
sanitisation collapses the run and the 500-character limit is checked on the
sanitised text. -/
theorem claim_C7_counterexample :
    longInput501.length = 501 ∧
    ((create_suggestion sampleDB 5 longInput501 true true).2).isOk = true := by
  constructor <;> decide

/-- C7 (amended): `Create` rejects with a 400-equivalent `ValidationError`, and
persists nothing, exactly when the **sanitised** text is empty or longer than
500 characters; when the sanitised text is non-empty and at most 500
characters the submission is accepted and the sanitised text is stored.  (In
particular raw empty input is rejected with no row persisted; the 500/501
boundary applies to the sanitised length, not the raw length.) -/
theorem claim_C7 (db : DB) (uid : Nat) (txt : List Char) (aa : Bool) :
    (sanitize_text txt = [] →
      create_suggestion db uid txt aa true = (db, Except.error (PyErr.http 400))) ∧
    ((sanitize_text txt).length > 500 →
      create_suggestion db uid txt aa true = (db, Except.error (PyErr.http 400))) ∧
    (sanitize_text txt ≠ [] → (sanitize_text txt).length ≤ 500 →
      ((create_suggestion db uid txt aa true).2 =
        Except.ok ⟨db.nextId, some uid, sanitize_text txt, userSrc, aa, db.nextId⟩ ∧
      (create_suggestion db uid txt aa true).1.suggestions =
        db.suggestions ++ [⟨db.nextId, some uid, sanitize_text txt, userSrc, aa, db.nextId⟩])) := by
  refine ⟨?_, ?_, ?_⟩
  · intro h
    simp [create_suggestion, validate_text, h]
  · intro h
    by_cases he : sanitize_text txt = []
    · simp [create_suggestion, validate_text, he]
    · simp [create_suggestion, validate_text, he, h]
  · intro he hl
    have hl2 : ¬ (sanitize_text txt).length > 500 := by omega
    constructor <;> simp [create_suggestion, validate_text, he, hl2]

/-- C7 witness: the empty submission is rejected with nothing persisted, and a
plain short submission is accepted. -/
theorem claim_C7_witness :
    (create_suggestion sampleDB 5 [] true true =
      (sampleDB, Except.error (PyErr.http 400))) ∧
    ((create_suggestion sampleDB 5 helloWorld true true).2 =
      Except.ok ⟨4, some 5, sanitize_text helloWorld, userSrc, true, 4⟩) :=
  ⟨(claim_C7 sampleDB 5 [] true).1 (by decide),
   ((claim_C7 sampleDB 5 helloWorld true).2.2 (by decide) (by decide)).1⟩

/-- C9: every element of the feed comes from an approved suggestion row with
source `user`; suggestions persisted by the Generate (`ai`) or Ingest
(`system`) paths never appear. -/
theorem claim_C9 (db : DB) (uid : Nat) (dto : FeedDTO)
    (h : dto ∈ feed_suggestions db uid) :
    ∃ s : SuggestionRow, s ∈ db.suggestions ∧ s.is_approved = true ∧
      s.source = userSrc ∧ dto.id = s.id ∧ dto.text = s.text := by
  unfold feed_suggestions at h
  simp only [] at h
  rcases List.mem_map.mp h with ⟨s, hs, hdto⟩
  have hs2 : s ∈ List.insertionSort geByCreated
      (db.suggestions.filter (fun s => s.is_approved && decide (s.source = userSrc))) :=
    List.take_subset _ _ hs
  have hs3 : s ∈ db.suggestions.filter (fun s => s.is_approved && decide (s.source = userSrc)) :=
    (List.perm_insertionSort _ _).subset hs2
  rcases List.mem_filter.mp hs3 with ⟨hmem, hp⟩
  simp only [Bool.and_eq_true, decide_eq_true_eq] at hp
  exact ⟨s, hmem, hp.1, hp.2, by rw [← hdto], by rw [← hdto]⟩

/-- C9 witness: in `sampleDB` (one `system`, one `user`, one `ai` row, all
approved) the feed contains exactly the `user` row, and the theorem applied to
it produces the underlying approved `user` suggestion. -/
theorem claim_C9_witness :
    (feed_suggestions sampleDB 5).map (fun d => d.id) = [2] ∧
    ∃ s : SuggestionRow, s ∈ sampleDB.suggestions ∧ s.is_approved = true ∧
      s.source = userSrc ∧
      (⟨2, some 5, tipTwo, 0, 0, false⟩ : FeedDTO).id = s.id ∧
      (⟨2, some 5, tipTwo, 0, 0, false⟩ : FeedDTO).text = s.text :=
  ⟨by decide, claim_C9 sampleDB 5 ⟨2, some 5, tipTwo, 0, 0, false⟩ (by decide)⟩

theorem validate_text_ok {txt t : List Char} (h : validate_text txt = Except.ok t) :
    t = sanitize_text txt ∧ t ≠ [] ∧ t.length ≤ 500 := by
  unfold validate_text at h
  by_cases he : sanitize_text txt = []
  · rw [if_pos he] at h
    exact absurd h (by simp)
  · rw [if_neg he] at h
    by_cases hl : (sanitize_text txt).length > 500
    · rw [if_pos hl] at h
      exact absurd h (by simp)
    · rw [if_neg hl] at h
      simp only [Except.ok.injEq] at h
      exact ⟨h.symm, by rw [h] at he; exact he, by rw [h] at hl; omega⟩

/-- C10: every row persisted through Create, Comment, or Ingest-daily stores
the sanitised form of the submitted text — non-empty and at most 500
characters — not the raw submission (Generate persists nothing at all, since
every call fails with the `TypeError` of C2, so the invariant holds for it
vacuously); and a submission shaped like JSON, `{"text": "hi"}`, is stored as
the extracted inner string `hi`. -/
theorem claim_C10 :
    (∀ (db : DB) (uid : Nat) (txt : List Char) (aa c : Bool) (db2 : DB) (r : SuggestionRow),
      create_suggestion db uid txt aa c = (db2, Except.ok r) →
      r.text = sanitize_text txt ∧ r.text ≠ [] ∧ r.text.length ≤ 500 ∧
        r ∈ db2.suggestions) ∧
    (∀ (db : DB) (uid sid : Nat) (txt : List Char) (c : Bool) (db2 : DB)
        (r : SuggestionCommentRow),
      add_comment db uid sid txt c = (db2, Except.ok r) →
      r.text = sanitize_text txt ∧ r.text ≠ [] ∧ r.text.length ≤ 500 ∧
        r ∈ db2.comments) ∧
    (∀ (db : DB) (ek ak txt : List Char) (today : Nat) (c1 c2 : Bool) (db2 : DB)
        (resp : IngestResp),
      ingest_daily_suggestion db ek ak txt today c1 c2 = (db2, Except.ok resp) →
      ∃ s : SuggestionRow, s ∈ db2.suggestions ∧ s.id = resp.suggestion_id ∧
        s.text = sanitize_text txt ∧ s.text ≠ [] ∧ s.text.length ≤ 500) ∧
    (∀ (db : DB) (uid : Nat) (url : Bool) (env : Nat → AIOutcome) (c : Bool)
        (today : Nat) (db2 : DB) (r : SuggestionRow),
      generate_daily_ai_suggestion db uid url env c today = (db2, Except.ok r) →
        False) ∧
    sanitize_text jsonShapedInput = ['h', 'i'] := by
  refine ⟨?_, ?_, ?_, ?_, by decide⟩
  · intro db uid txt aa c db2 r h
    unfold create_suggestion at h
    cases hv : validate_text txt with
    | error e => rw [hv] at h; exact absurd h (by simp)
    | ok t =>
      rw [hv] at h
      simp only [] at h
      obtain ⟨ht, hne, hlen⟩ := validate_text_ok hv
      cases c with
      | false => exact absurd h (by simp)
      | true =>
        simp only [if_true] at h
        have hr : r = ⟨db.nextId, some uid, t, userSrc, aa, db.nextId⟩ := by
          have := congrArg Prod.snd h
          simp at this
          exact this.symm
        have hdb : db2 = { db with suggestions := db.suggestions ++
            [⟨db.nextId, some uid, t, userSrc, aa, db.nextId⟩], nextId := db.nextId + 1 } := by
          have := congrArg Prod.fst h
          simp at this
          exact this.symm
        subst hr hdb
        refine ⟨by rw [ht], by simpa using hne, by simpa using hlen, ?_⟩
        exact List.mem_append_right _ (List.mem_singleton_self _)
  · intro db uid sid txt c db2 r h
    unfold add_comment at h
    cases hf : db.suggestions.find? (fun s => decide (s.id = sid)) with
    | none => rw [hf] at h; exact absurd h (by simp)
    | some s0 =>
      rw [hf] at h
      cases hv : validate_text txt with
      | error e => rw [hv] at h; exact absurd h (by simp)
      | ok t =>
        rw [hv] at h
        simp only [] at h
        obtain ⟨ht, hne, hlen⟩ := validate_text_ok hv
        cases c with
        | false => exact absurd h (by simp)
        | true =>
          simp only [if_true] at h
          have hr : r = ⟨db.nextCid, sid, uid, t, db.nextCid⟩ := by
            have := congrArg Prod.snd h
            simp at this
            exact this.symm
          have hdb : db2 = { db with comments := db.comments ++
              [⟨db.nextCid, sid, uid, t, db.nextCid⟩], nextCid := db.nextCid + 1 } := by
            have := congrArg Prod.fst h
            simp at this
            exact this.symm
          subst hr hdb
          refine ⟨by rw [ht], by simpa using hne, by simpa using hlen, ?_⟩
          exact List.mem_append_right _ (List.mem_singleton_self _)
  · intro db ek ak txt today c1 c2 db2 resp h
    unfold ingest_daily_suggestion at h
    by_cases h1 : pyStrip ek = []
    · rw [if_pos h1] at h; exact absurd h (by simp)
    · rw [if_neg h1] at h
      by_cases h2 : ak ≠ pyStrip ek
      · rw [if_pos h2] at h; exact absurd h (by simp)
      · rw [if_neg h2] at h
        cases hv : validate_text txt with
        | error e => rw [hv] at h; exact absurd h (by simp)
        | ok t =>
          rw [hv] at h
          simp only [] at h
          obtain ⟨ht, hne, hlen⟩ := validate_text_ok hv
          cases c1 with
          | false => exact absurd h (by simp)
          | true =>
            simp only [Bool.not_true, if_neg (by simp : ¬ (false = true))] at h
            refine ⟨⟨db.nextId, none, t, systemSrc, true, db.nextId⟩, ?_, ?_, by rw [ht],
              by simpa using hne, by simpa using hlen⟩
            · cases c2 with
              | false =>
                simp only [if_neg (by simp : ¬ (false = true))] at h
                have := congrArg Prod.fst h
                simp at this
                rw [← this]
                exact List.mem_append_right _ (List.mem_singleton_self _)
              | true =>
                simp only [if_pos rfl] at h
                have := congrArg Prod.fst h
                simp at this
                cases hfind : db.globalDaily.find? (fun g => decide (g.day = today)) with
                | none =>
                  rw [hfind] at this
                  simp at this
                  rw [← this]
                  exact List.mem_append_right _ (List.mem_singleton_self _)
                | some g0 =>
                  rw [hfind] at this
                  simp at this
                  rw [← this]
                  exact List.mem_append_right _ (List.mem_singleton_self _)
            · cases c2 with
              | false =>
                simp only [if_neg (by simp : ¬ (false = true))] at h
                have := congrArg Prod.snd h
                simp at this
                rw [← this]
              | true =>
                simp only [if_pos rfl] at h
                have := congrArg Prod.snd h
                simp at this
                rw [← this]
  · intro db uid url env c today db2 r h
    unfold generate_daily_ai_suggestion at h
    rw [show callBindingOk = false by decide] at h
    simp at h

/-- C10 witness: submitting the JSON-shaped text `{"text": "hi"}` to Create
stores the row whose text is the extracted inner string `hi`. -/
theorem claim_C10_witness :
    (⟨4, some 5, ['h', 'i'], userSrc, true, 4⟩ : SuggestionRow).text =
      sanitize_text jsonShapedInput ∧
    (⟨4, some 5, ['h', 'i'], userSrc, true, 4⟩ : SuggestionRow).text ≠ [] ∧
    (⟨4, some 5, ['h', 'i'], userSrc, true, 4⟩ : SuggestionRow).text.length ≤ 500 ∧
    (⟨4, some 5, ['h', 'i'], userSrc, true, 4⟩ : SuggestionRow) ∈
      (create_suggestion sampleDB 5 jsonShapedInput true true).1.suggestions :=
  claim_C10.1 sampleDB 5 jsonShapedInput true true
    (create_suggestion sampleDB 5 jsonShapedInput true true).1
    ⟨4, some 5, ['h', 'i'], userSrc, true, 4⟩ rfl

theorem find?_eq_head_filter {α : Type} (p : α → Bool) :
    ∀ l : List α, l.find? p = (l.filter p).head? := by
  intro l
  induction l with
  | nil => rfl
  | cons a t ih =>
    by_cases hp : p a
    · rw [List.find?_cons_of_pos _ hp, List.filter_cons_of_pos hp]
      rfl
    · rw [List.find?_cons_of_neg _ (by simpa using hp), List.filter_cons_of_neg]
      · exact ih
      · simpa using hp

theorem updateDay_map_day : ∀ (l : List GlobalDailyRow) (d sid : Nat),
    (updateDay l d sid).map (fun g => g.day) = l.map (fun g => g.day) := by
  intro l d sid
  induction l with
  | nil => rfl
  | cons g t ih =>
    by_cases hd : g.day = d
    · rw [updateDay, if_pos hd]
      rfl
    · rw [updateDay, if_neg hd, List.map_cons, List.map_cons, ih]

theorem filter_day_eq_nil {l : List GlobalDailyRow} {d : Nat}
    (h : d ∉ l.map (fun g => g.day)) :
    l.filter (fun g => decide (g.day = d)) = [] := by
  rw [List.filter_eq_nil]
  intro g hg
  simp only [decide_eq_true_eq]
  intro he
  exact h (by rw [← he]; exact List.mem_map_of_mem _ hg)

theorem filter_updateDay {l : List GlobalDailyRow} {d sid : Nat} {g0 : GlobalDailyRow}
    (hnd : (l.map (fun g => g.day)).Nodup)
    (hf : l.find? (fun g => decide (g.day = d)) = some g0) :
    (updateDay l d sid).filter (fun g => decide (g.day = d)) =
      [{ g0 with suggestion_id := sid }] := by
  induction l with
  | nil => simp at hf
  | cons g t ih =>
    by_cases hd : g.day = d
    · rw [List.find?_cons_of_pos _ (by simpa using hd)] at hf
      have hg0 : g = g0 := by simpa using hf
      rw [updateDay, if_pos hd]
      rw [List.filter_cons_of_pos (by simpa using hd)]
      have hnotin : d ∉ t.map (fun g => g.day) := by
        rw [List.map_cons] at hnd
        rw [← hd]
        exact (List.nodup_cons.mp hnd).1
      rw [filter_day_eq_nil hnotin, hg0]
    · rw [List.find?_cons_of_neg _ (by simpa using hd)] at hf
      rw [updateDay, if_neg hd, List.filter_cons_of_neg (by simpa using hd)]
      exact ih (by rw [List.map_cons] at hnd; exact (List.nodup_cons.mp hnd).2) hf

theorem map_eq_singleton {α β : Type} {f : α → β} {l : List α} {b : β}
    (h : l.map f = [b]) : ∃ a, l = [a] ∧ f a = b := by
  cases l with
  | nil => simp at h
  | cons a t =>
    cases t with
    | nil =>
      refine ⟨a, rfl, ?_⟩
      simpa using h
    | cons a2 t2 => simp at h

/-- Successful ingest (both commits succeed): explicit result shape. -/
theorem ingest_ok {db : DB} {ek ak txt t : List Char} {today : Nat}
    (hek : pyStrip ek ≠ []) (hak : ak = pyStrip ek)
    (hv : validate_text txt = Except.ok t) :
    ingest_daily_suggestion db ek ak txt today true true =
      (match ({ db with
            suggestions := db.suggestions ++
              [⟨db.nextId, none, t, systemSrc, true, db.nextId⟩],
            nextId := db.nextId + 1 } : DB).globalDaily.find?
            (fun g => decide (g.day = today)) with
        | some _ =>
          ({ db with
              suggestions := db.suggestions ++
                [⟨db.nextId, none, t, systemSrc, true, db.nextId⟩],
              nextId := db.nextId + 1,
              globalDaily := updateDay db.globalDaily today db.nextId } : DB)
        | none =>
          ({ db with
              suggestions := db.suggestions ++
                [⟨db.nextId, none, t, systemSrc, true, db.nextId⟩],
              nextId := db.nextId + 1,
              globalDaily := db.globalDaily ++ [⟨db.nextGdId, db.nextId, today⟩],
              nextGdId := db.nextGdId + 1 } : DB),
        Except.ok ⟨today, db.nextId⟩) := by
  have hne2 : ¬ (ak ≠ pyStrip ek) := by rw [hak]; simp
  unfold ingest_daily_suggestion
  rw [if_neg hek, if_neg hne2, hv]
  simp only []
  rw [if_neg (by simp : ¬ ¬ True), if_pos trivial]

theorem day_not_mem_of_find?_none {l : List GlobalDailyRow} {d : Nat}
    (h : l.find? (fun g => decide (g.day = d)) = none) :
    d ∉ l.map (fun g => g.day) := by
  intro hm
  rcases List.mem_map.mp hm with ⟨g, hg, hgd⟩
  have := List.find?_eq_none.mp h g hg
  simp at this
  exact this hgd

/-- After one mapping upsert (update the existing row for `d`, or append a
fresh one), exactly one row for `d` remains and it points at `sid`; day
uniqueness is preserved. -/
theorem upsert_char {l l2 : List GlobalDailyRow} {d sid : Nat}
    (hnd : (l.map (fun g => g.day)).Nodup)
    (hshape :
      (∃ g0, l.find? (fun g => decide (g.day = d)) = some g0 ∧ l2 = updateDay l d sid) ∨
      (l.find? (fun g => decide (g.day = d)) = none ∧
        ∃ gid, l2 = l ++ [⟨gid, sid, d⟩])) :
    (l2.filter (fun g => decide (g.day = d))).map (fun g => g.suggestion_id) = [sid] ∧
    (l2.map (fun g => g.day)).Nodup := by
  rcases hshape with ⟨g0, hf, hl2⟩ | ⟨hf, gid, hl2⟩
  · subst hl2
    rw [filter_updateDay hnd hf]
    refine ⟨rfl, ?_⟩
    rw [updateDay_map_day]
    exact hnd
  · subst hl2
    have hnm := day_not_mem_of_find?_none hf
    constructor
    · rw [List.filter_append, filter_day_eq_nil hnm]
      simp
    · rw [List.map_append]
      simp only [List.map_cons, List.map_nil]
      rw [List.nodup_append]
      refine ⟨hnd, List.nodup_singleton _, ?_⟩
      intro a ha hb
      simp at hb
      rw [hb] at ha
      exact hnm ha

/-- Field-level description of a successful ingest. -/
theorem ingest_ok_fields {db : DB} {ek ak txt t : List Char} {today : Nat}
    (hek : pyStrip ek ≠ []) (hak : ak = pyStrip ek)
    (hv : validate_text txt = Except.ok t) :
    (ingest_daily_suggestion db ek ak txt today true true).1.suggestions =
      db.suggestions ++ [⟨db.nextId, none, t, systemSrc, true, db.nextId⟩] ∧
    (ingest_daily_suggestion db ek ak txt today true true).1.nextId = db.nextId + 1 ∧
    ((∃ g0, db.globalDaily.find? (fun g => decide (g.day = today)) = some g0 ∧
        (ingest_daily_suggestion db ek ak txt today true true).1.globalDaily =
          updateDay db.globalDaily today db.nextId) ∨
     (db.globalDaily.find? (fun g => decide (g.day = today)) = none ∧
        ∃ gid, (ingest_daily_suggestion db ek ak txt today true true).1.globalDaily =
          db.globalDaily ++ [⟨gid, db.nextId, today⟩])) := by
  rw [ingest_ok hek hak hv]
  cases hfind : db.globalDaily.find? (fun g => decide (g.day = today)) with
  | some g0 =>
    refine ⟨by simp, by simp, Or.inl ⟨g0, rfl, by simp⟩⟩
  | none =>
    refine ⟨by simp, by simp, Or.inr ⟨rfl, db.nextGdId, by simp⟩⟩

/-- C8: calling ingest-daily twice on the same day (valid key, valid texts,
commits succeeding) answers ok both times; after the second call the day's
mapping consists of exactly one row pointing at the second suggestion (the
upsert overwrote it, no duplicate day row), and `GET /suggestions/daily` then
returns the suggestion created by the second call, carrying the second
(sanitised) text. -/
theorem claim_C8 (db : DB) (ek ak t1 t2 : List Char) (today uid : Nat)
    (hwf : WFdb db) (hek : pyStrip ek ≠ []) (hak : ak = pyStrip ek)
    (h1 : validate_text t1 = Except.ok (sanitize_text t1))
    (h2 : validate_text t2 = Except.ok (sanitize_text t2)) :
    (ingest_daily_suggestion db ek ak t1 today true true).2 =
      Except.ok ⟨today, db.nextId⟩ ∧
    (ingest_daily_suggestion (ingest_daily_suggestion db ek ak t1 today true true).1
        ek ak t2 today true true).2 = Except.ok ⟨today, db.nextId + 1⟩ ∧
    (((ingest_daily_suggestion (ingest_daily_suggestion db ek ak t1 today true true).1
        ek ak t2 today true true).1.globalDaily.filter
          (fun g => decide (g.day = today))).map (fun g => g.suggestion_id)) =
      [db.nextId + 1] ∧
    ((get_daily_suggestion (ingest_daily_suggestion (ingest_daily_suggestion
          db ek ak t1 today true true).1 ek ak t2 today true true).1 today uid).2).toOption.map
        (fun d => (d.id, d.text)) = some (db.nextId + 1, sanitize_text t2) := by
  obtain ⟨hs1, hn1, hg1⟩ := @ingest_ok_fields db ek ak t1 (sanitize_text t1) today hek hak h1
  set db1 := (ingest_daily_suggestion db ek ak t1 today true true).1 with hdb1
  obtain ⟨hs2, hn2, hg2⟩ := @ingest_ok_fields db1 ek ak t2 (sanitize_text t2) today hek hak h2
  set db2 := (ingest_daily_suggestion db1 ek ak t2 today true true).1 with hdb2
  have hc1 : (ingest_daily_suggestion db ek ak t1 today true true).2 =
      Except.ok ⟨today, db.nextId⟩ := by
    rw [ingest_ok hek hak h1]
  have hc2 : (ingest_daily_suggestion db1 ek ak t2 today true true).2 =
      Except.ok ⟨today, db1.nextId⟩ := by
    rw [ingest_ok hek hak h2]
  have hch1 := upsert_char hwf.2 hg1
  obtain ⟨grow1, hgval1, hgsid1⟩ := map_eq_singleton hch1.1
  have hfind1 : db1.globalDaily.find? (fun g => decide (g.day = today)) = some grow1 := by
    rw [find?_eq_head_filter, hgval1]
    rfl
  have hg2u : db2.globalDaily = updateDay db1.globalDaily today db1.nextId := by
    rcases hg2 with ⟨g0, _, he⟩ | ⟨hf, _, _⟩
    · exact he
    · rw [hfind1] at hf
      exact absurd hf (by simp)
  have hch2 := upsert_char hch1.2 (Or.inl ⟨grow1, hfind1, hg2u⟩)
  obtain ⟨grow2, hgval2, hgsid2⟩ := map_eq_singleton hch2.1
  have hfind2 : db2.globalDaily.find? (fun g => decide (g.day = today)) = some grow2 := by
    rw [find?_eq_head_filter, hgval2]
    rfl
  have hfs : db2.suggestions.find? (fun s => decide (s.id = grow2.suggestion_id)) =
      some ⟨db1.nextId, none, sanitize_text t2, systemSrc, true, db1.nextId⟩ := by
    rw [hs2, hs1, hgsid2, List.find?_append, List.find?_append]
    have hfa : db.suggestions.find? (fun s => decide (s.id = db1.nextId)) = none := by
      rw [List.find?_eq_none]
      intro s hs
      have := hwf.1 s hs
      simp only [decide_eq_true_eq]
      rw [hn1]
      omega
    have hfb : ([(⟨db.nextId, none, sanitize_text t1, systemSrc, true, db.nextId⟩ :
        SuggestionRow)]).find? (fun s => decide (s.id = db1.nextId)) = none := by
      rw [List.find?_eq_none]
      intro s hs
      simp only [List.mem_singleton] at hs
      subst hs
      simp only [decide_eq_true_eq]
      rw [hn1]
      omega
    rw [hfa, hfb]
    simp [List.find?]
  refine ⟨hc1, by rw [hc2, hn1], by rw [hch2.1, hn1], ?_⟩
  unfold get_daily_suggestion
  simp only [hfind2, hfs]
  rw [hn1]
  simp only [mkDailyDTO, Except.toOption, Option.map_some]
  simp [Option.map_some]

/-- C8 witness: two same-day ingests into `sampleDB`; the mapping ends as one
row pointing at the second suggestion (id 5) and the daily endpoint serves it. -/
theorem claim_C8_witness :
    (ingest_daily_suggestion sampleDB ingestKey ingestKey firstTip 10 true true).2 =
      Except.ok ⟨10, 4⟩ ∧
    (ingest_daily_suggestion
        (ingest_daily_suggestion sampleDB ingestKey ingestKey firstTip 10 true true).1
        ingestKey ingestKey secondTip 10 true true).2 = Except.ok ⟨10, 5⟩ ∧
    (((ingest_daily_suggestion
        (ingest_daily_suggestion sampleDB ingestKey ingestKey firstTip 10 true true).1
        ingestKey ingestKey secondTip 10 true true).1.globalDaily.filter
          (fun g => decide (g.day = 10))).map (fun g => g.suggestion_id)) = [5] ∧
    ((get_daily_suggestion (ingest_daily_suggestion (ingest_daily_suggestion
          sampleDB ingestKey ingestKey firstTip 10 true true).1
          ingestKey ingestKey secondTip 10 true true).1 10 7).2).toOption.map
        (fun d => (d.id, d.text)) = some (5, sanitize_text secondTip) :=
  claim_C8 sampleDB ingestKey ingestKey firstTip secondTip 10 7
    (by decide) (by decide) rfl rfl rfl
